import Mathlib

/-!
Verification of the Data Preparation & Aggregation Core of the
Datamart-SAP project dashboard (view_paradas.py, view_retrasos.py).

The tables are shallowly embedded: a cell is a `PValue`/`RValue`
(missing, integer, string, or date), a table is a list of rows together
with one presence flag per optional column.  Numeric cells are modelled
as integers (every threshold and day count in the source is integral);
a cell that pandas would parse as a timestamp is modelled by the `date`
constructor and every other cell coerces to `NaT`/`NaN` (the `null`
constructor), mirroring `errors="coerce"`.
-/

/-- A calendar date as carried by a parsed `FechaActualizacion` cell. -/
structure Fecha where
  year : Int
  month : Nat
  day : Nat
deriving DecidableEq, Repr

/-- A cell of the paradas working table. -/
inductive PValue where
  | null : PValue
  | int : Int → PValue
  | str : String → PValue
  | date : Fecha → PValue
deriving DecidableEq, Repr

/-- Models `Series.fillna(d)`: missing cells become the default. -/
def fillna (d : PValue) : PValue → PValue
  | .null => d
  | v => v

/-- Models `pd.to_numeric(col, errors="coerce")` with numbers as integers:
numeric cells pass through, strings parse as integers or coerce to
missing, dates and missing cells coerce to missing. -/
def toNumeric : PValue → PValue
  | .int n => .int n
  | .str s => match s.toInt? with
    | some n => .int n
    | none => .null
  | _ => .null

/-- Models `pd.to_datetime(col, errors="coerce")`: cells that parse as
dates stay, everything else coerces to `NaT` (missing). -/
def toDatetime : PValue → PValue
  | .date f => .date f
  | _ => .null

/-- Models `.astype(int)` on a column that the source has already made
all-numeric (applied after `fillna`, so no missing cell reaches it). -/
def astypeInt : PValue → PValue
  | .int n => .int n
  | v => v

/-- Rendering of a cell by `.astype(str)` (missing renders as "nan"). -/
def valueStr : PValue → String
  | .str s => s
  | .int n => toString n
  | .null => "nan"
  | .date f => toString f.year ++ "-" ++
      (if f.month < 10 then "0" ++ toString f.month else toString f.month) ++ "-" ++
      (if f.day < 10 then "0" ++ toString f.day else toString f.day)

/-- Models `.astype(str)`. -/
def astypeStr (v : PValue) : PValue := .str (valueStr v)

/-- Models `col.dt.year` (`NaT` gives a missing year). -/
def yearOf : PValue → PValue
  | .date f => .int f.year
  | _ => .null

/-- Models `col.dt.strftime("%Y-%m")` (`NaT` gives a missing cell). -/
def mesOf : PValue → PValue
  | .date f => .str (toString f.year ++ "-" ++
      (if f.month < 10 then "0" ++ toString f.month else toString f.month))
  | _ => .null

/-- Models `"T" + col.dt.quarter.astype(str)`; the quarter of `NaT`
renders as "nan", hence "Tnan". -/
def trimestreFromFecha : PValue → PValue
  | .date f => .str ("T" ++ toString ((f.month - 1) / 3 + 1))
  | _ => .str "Tnan"

/-- Numeric content of a cell; the classifier columns are built right
after the numeric-coercion step, which leaves only integer cells. -/
def asInt : PValue → Int
  | .int n => n
  | _ => 0

/-- The severity classifier `clasificar_severidad` of
`_preparar_datos_robustos` (view_paradas.py lines 164-170). -/
def clasificar_severidad (dias : Int) : String :=
  if dias > 31 then "Critico >31d"
  else if dias > 0 then "Moderado 1-31d"
  else "Sin retraso"

/-- The impact classifier `clasificar_impacto` of
`_preparar_datos_robustos` (view_paradas.py lines 174-182). -/
def clasificar_impacto (monto : Int) : String :=
  if monto > 500000 then ">$500K"
  else if monto > 100000 then "$100K-$500K"
  else if monto > 0 then "$1-$100K"
  else "Sin impacto"

/-- One row of the paradas working table, one field per column the
pipeline touches (the three derived columns included). -/
structure PRow where
  projectID : PValue
  projectName : PValue
  customerRegion : PValue
  projectStatusFlag : PValue
  diasRetraso : PValue
  criticalityLevel : PValue
  statusReasonCategory : PValue
  indicadorRetraso : PValue
  impactoVenta : PValue
  duracionProyecto : PValue
  fechaActualizacion : PValue
  anio : PValue
  mes : PValue
  trimestre : PValue
  severidadRetraso : PValue
  rangoImpacto : PValue
  anioTrimestre : PValue
deriving DecidableEq, Repr

/-- The paradas table: presence flags for the columns the source probes
with `in df.columns` (one per input column; the derived columns are
overwritten unconditionally), plus the rows.  Duplicate column labels
cannot arise in this representation, so the dedup step of line 118-119
is the identity here. -/
structure PTable where
  hasProjectID : Bool
  hasProjectName : Bool
  hasCustomerRegion : Bool
  hasProjectStatusFlag : Bool
  hasDiasRetraso : Bool
  hasCriticalityLevel : Bool
  hasStatusReasonCategory : Bool
  hasIndicadorRetraso : Bool
  hasImpactoVenta : Bool
  hasDuracionProyecto : Bool
  hasFechaActualizacion : Bool
  hasAnio : Bool
  hasMes : Bool
  hasTrimestre : Bool
  rows : List PRow
deriving DecidableEq, Repr

/-- A table whose every expected column is present. -/
def allPresent (rows : List PRow) : PTable :=
  { hasProjectID := true, hasProjectName := true, hasCustomerRegion := true,
    hasProjectStatusFlag := true, hasDiasRetraso := true, hasCriticalityLevel := true,
    hasStatusReasonCategory := true, hasIndicadorRetraso := true, hasImpactoVenta := true,
    hasDuracionProyecto := true, hasFechaActualizacion := true, hasAnio := true,
    hasMes := true, hasTrimestre := true, rows := rows }

/-- Defaulting of a string-valued critical column (lines 134-143): absent
columns are created from the scalar default, present ones have missing
cells filled with it. -/
def coerceStr (present : Bool) (d : String) (v : PValue) : PValue :=
  if present then fillna (.str d) v else .str d

/-- Defaulting of a numeric critical column (lines 138-139): parse to
number with invalid cells coerced, then fill missing with 0; absent
columns are created as the scalar 0. -/
def coerceNum (present : Bool) (v : PValue) : PValue :=
  if present then fillna (.int 0) (toNumeric v) else .int 0

/-- Resolution of `FechaActualizacion` (lines 145-148): absent columns
get the processing time, present ones are parsed with coercion. -/
def coerceFecha (present : Bool) (now : Fecha) (v : PValue) : PValue :=
  if present then toDatetime v else .date now

/-- Resolution of `Año` (lines 150-153): absent columns derive from the
resolved timestamp's year, present ones are parsed with fallback 2024. -/
def coerceAnio (present : Bool) (fecha : PValue) (v : PValue) : PValue :=
  if present then astypeInt (fillna (.int 2024) (toNumeric v)) else yearOf fecha

/-- Resolution of `Mes` (lines 155-156): only created when absent. -/
def coerceMes (present : Bool) (fecha : PValue) (v : PValue) : PValue :=
  if present then v else mesOf fecha

/-- Resolution of `Trimestre` (lines 158-162): absent columns derive the
"T"-labelled quarter, present ones are coerced to string. -/
def coerceTrimestre (present : Bool) (fecha : PValue) (v : PValue) : PValue :=
  if present then astypeStr v else trimestreFromFecha fecha

/-- Lines 134-186 of `_preparar_datos_robustos` as a single row
transform (each pandas assignment there touches a distinct column, so
the column-wise passes fuse into one row-wise pass); `ProjectID` is
handled separately because its default is positional. -/
def coerceRow (df : PTable) (now : Fecha) (r : PRow) : PRow :=
  { projectID := r.projectID,
    projectName := coerceStr df.hasProjectName "Proyecto Sin Nombre" r.projectName,
    customerRegion := coerceStr df.hasCustomerRegion "No Especificado" r.customerRegion,
    projectStatusFlag := coerceStr df.hasProjectStatusFlag "Unknown" r.projectStatusFlag,
    diasRetraso := coerceNum df.hasDiasRetraso r.diasRetraso,
    criticalityLevel := coerceStr df.hasCriticalityLevel "Normal" r.criticalityLevel,
    statusReasonCategory := coerceStr df.hasStatusReasonCategory "Otro" r.statusReasonCategory,
    indicadorRetraso := coerceNum df.hasIndicadorRetraso r.indicadorRetraso,
    impactoVenta := coerceNum df.hasImpactoVenta r.impactoVenta,
    duracionProyecto := coerceNum df.hasDuracionProyecto r.duracionProyecto,
    fechaActualizacion := coerceFecha df.hasFechaActualizacion now r.fechaActualizacion,
    anio := coerceAnio df.hasAnio (coerceFecha df.hasFechaActualizacion now r.fechaActualizacion) r.anio,
    mes := coerceMes df.hasMes (coerceFecha df.hasFechaActualizacion now r.fechaActualizacion) r.mes,
    trimestre := coerceTrimestre df.hasTrimestre
      (coerceFecha df.hasFechaActualizacion now r.fechaActualizacion) r.trimestre,
    severidadRetraso := PValue.str (clasificar_severidad (asInt (coerceNum df.hasDiasRetraso r.diasRetraso))),
    rangoImpacto := PValue.str (clasificar_impacto (asInt (coerceNum df.hasImpactoVenta r.impactoVenta))),
    anioTrimestre := PValue.str
      (valueStr (coerceAnio df.hasAnio (coerceFecha df.hasFechaActualizacion now r.fechaActualizacion) r.anio)
        ++ "-" ++
        valueStr (coerceTrimestre df.hasTrimestre
          (coerceFecha df.hasFechaActualizacion now r.fechaActualizacion) r.trimestre)) }

/-- Models `df["ProjectID"] = range(1, len(df) + 1)` (line 122): fill the
identifier column with consecutive integers starting at `k`. -/
def numerarDesde (k : Int) : List PRow → List PRow
  | [] => []
  | r :: rs => { r with projectID := PValue.int k } :: numerarDesde (k + 1) rs

/-- Models `_preparar_datos_robustos` (view_paradas.py lines 113-190):
identifier defaulting (positional counter when absent, sentinel -1 for
missing cells when present), the per-column coercions, the derived
classification columns, and the final `dropna(subset=["ProjectID"])`.
`now` models `pd.Timestamp.now()`. -/
def preparar_datos_robustos (now : Fecha) (df : PTable) : PTable :=
  allPresent
    ((((if df.hasProjectID then
          df.rows.map (fun r => { r with projectID := fillna (PValue.int (-1)) r.projectID })
        else
          numerarDesde 1 df.rows).map (coerceRow df now)).filter
      (fun r => r.projectID != PValue.null)))

/-- A cell of the retrasos working table; dates here are day numbers so
that `(fecha_hoy - PlannedGoLive).dt.days` is plain subtraction. -/
inductive RValue where
  | null : RValue
  | int : Int → RValue
  | str : String → RValue
  | date : Int → RValue
deriving DecidableEq, Repr

/-- Models `Series.fillna(d)` on the retrasos table. -/
def fillnaR (d : RValue) : RValue → RValue
  | .null => d
  | v => v

/-- Models `pd.to_numeric(col, errors="coerce")` on the retrasos table. -/
def toNumericR : RValue → RValue
  | .int n => .int n
  | .str s => match s.toInt? with
    | some n => .int n
    | none => .null
  | _ => .null

/-- Models `pd.to_datetime(col, errors="coerce")` on the retrasos table. -/
def toDatetimeR : RValue → RValue
  | .date d => .date d
  | _ => .null

/-- Models `.astype(int)` on a column already made all-numeric. -/
def astypeIntR : RValue → RValue
  | .int n => .int n
  | v => v

/-- One row of the retrasos working table. -/
structure RRow where
  mainPartner : RValue
  customerRegion : RValue
  solutionArea : RValue
  iss : RValue
  projectStatus : RValue
  projectName : RValue
  projectID : RValue
  plannedGoLive : RValue
  diasRetraso : RValue
deriving DecidableEq, Repr

/-- The retrasos table, with presence flags for the columns the source
probes with `in df.columns`. -/
structure RTable where
  hasMainPartner : Bool
  hasCustomerRegion : Bool
  hasSolutionArea : Bool
  hasISS : Bool
  hasProjectStatus : Bool
  hasProjectName : Bool
  hasProjectID : Bool
  hasPlannedGoLive : Bool
  hasDiasRetraso : Bool
  rows : List RRow
deriving DecidableEq, Repr

/-- The `cols_defaults` loop of `_preparar_columnas` (view_retrasos.py
lines 87-100): an absent column is created from the scalar default, and
the column is then unconditionally `fillna`-ed with that default. -/
def coerceDefR (present : Bool) (d : String) (v : RValue) : RValue :=
  fillnaR (.str d) (if present then v else .str d)

/-- The `DiasRetraso` fallback of lines 112-119: create the column as 0
when absent, then parse to number with invalid cells coerced and fill
missing with 0. -/
def diasFallbackR (present : Bool) (v : RValue) : RValue :=
  fillnaR (.int 0) (toNumericR (if present then v else .int 0))

/-- The per-row effect of `_preparar_columnas` (view_retrasos.py lines
84-120): the seven defaulted columns, then the `DiasRetraso`
recomputation against the reference date when one is supplied and a
`PlannedGoLive` column exists (`(hoy - planned).dt.days`, missing
differences filled with 0 and cast to int), otherwise the numeric
fallback. -/
def prepRowR (df : RTable) (fechaHoy : Option Int) (r : RRow) : RRow :=
  { mainPartner := coerceDefR df.hasMainPartner "No Especificado" r.mainPartner,
    customerRegion := coerceDefR df.hasCustomerRegion "No Especificado" r.customerRegion,
    solutionArea := coerceDefR df.hasSolutionArea "No Especificado" r.solutionArea,
    iss := coerceDefR df.hasISS "No Especificado" r.iss,
    projectStatus := coerceDefR df.hasProjectStatus "Unknown" r.projectStatus,
    projectName := coerceDefR df.hasProjectName "Proyecto" r.projectName,
    projectID := coerceDefR df.hasProjectID "0" r.projectID,
    plannedGoLive :=
      match fechaHoy with
      | some _ => if df.hasPlannedGoLive then toDatetimeR r.plannedGoLive else r.plannedGoLive
      | none => r.plannedGoLive,
    diasRetraso :=
      match fechaHoy with
      | some hoy =>
        if df.hasPlannedGoLive then
          astypeIntR (fillnaR (.int 0)
            (match toDatetimeR r.plannedGoLive with
             | .date g => .int (hoy - g)
             | _ => .null))
        else diasFallbackR df.hasDiasRetraso r.diasRetraso
      | none => diasFallbackR df.hasDiasRetraso r.diasRetraso }

/-- Models `_preparar_columnas` (view_retrasos.py lines 84-120).
`fechaHoy` models `st.session_state.get("fecha_hoy", None)`. -/
def preparar_columnas (fechaHoy : Option Int) (df : RTable) : RTable :=
  { hasMainPartner := true, hasCustomerRegion := true, hasSolutionArea := true,
    hasISS := true, hasProjectStatus := true, hasProjectName := true,
    hasProjectID := true, hasPlannedGoLive := df.hasPlannedGoLive,
    hasDiasRetraso := true,
    rows := df.rows.map (prepRowR df fechaHoy) }

/-- Character match of the regex fragment the search filter can receive:
a literal character compares case-insensitively (`re.IGNORECASE` from
`case=False`) and the metacharacter '.' matches anything.  This models
`re.search` as invoked by `Series.str.contains(term, case=False,
na=False)`, whose default `regex=True` compiles the term as a regular
expression; the model covers the fragment of patterns built from
literal characters and '.'. -/
def charMatches (p c : Char) : Bool := p = '.' || p.toLower = c.toLower

/-- Match the whole pattern fragment at the start of the text. -/
def matchesHere : List Char → List Char → Bool
  | [], _ => true
  | _ :: _, [] => false
  | p :: ps, c :: cs => charMatches p c && matchesHere ps cs

/-- Match the pattern fragment at some position of the text
(`re.search` semantics). -/
def reSearch (pat : List Char) : List Char → Bool
  | [] => matchesHere pat []
  | c :: cs => matchesHere pat (c :: cs) || reSearch pat cs

/-- The element-wise predicate of `Series.str.contains(term, case=False,
na=False)`: missing cells and non-string cells never match
(`na=False`), string cells are regex-searched case-insensitively. -/
def strContainsCI (term : String) : RValue → Bool
  | .str s => reSearch term.data s.data
  | _ => false

/-- The search filter shared by `_aplicar_filtros_operacionales`
(view_retrasos.py lines 169-170) and `render_tabla_detalle` (lines
303-305): `if busqueda:` guards on a non-empty term, then
`df[df["ProjectName"].str.contains(busqueda, case=False, na=False)]`. -/
def filtroBusqueda (busqueda : String) (rows : List RRow) : List RRow :=
  if busqueda.isEmpty then rows
  else rows.filter (fun r => strContainsCI busqueda r.projectName)

/-- Case-insensitive comparison of one literal character (no
metacharacter reading): the predicate the claim describes. -/
def litCharMatches (p c : Char) : Bool := p.toLower = c.toLower

/-- Literal prefix match, case-insensitive. -/
def litMatchesHere : List Char → List Char → Bool
  | [], _ => true
  | _ :: _, [] => false
  | p :: ps, c :: cs => litCharMatches p c && litMatchesHere ps cs

/-- Literal containment at some position, case-insensitive. -/
def litContains (pat : List Char) : List Char → Bool
  | [] => litMatchesHere pat []
  | c :: cs => litMatchesHere pat (c :: cs) || litContains pat cs

/-- Modelled from the spec: the claim's search predicate, "a row is kept
iff its name contains S ignoring case, where the characters of S are
compared literally" (case-insensitive literal substring containment). -/
def literalContainsCI (term s : String) : Bool :=
  litContains term.data s.data

/-- One categorical sidebar filter of `_aplicar_filtros_avanzados`
(view_paradas.py lines 193-232), identified by its dimension and
carrying the multiselect selection. -/
inductive FilterSpec where
  | anio (sel : List PValue)
  | region (sel : List PValue)
  | estado (sel : List PValue)
  | severidad (sel : List PValue)
  | criticidad (sel : List PValue)
  | criterio (sel : List PValue)
deriving DecidableEq, Repr

/-- The column a filter dimension reads. -/
def campo : FilterSpec → PRow → PValue
  | .anio _, r => r.anio
  | .region _, r => r.customerRegion
  | .estado _, r => r.projectStatusFlag
  | .severidad _, r => r.severidadRetraso
  | .criticidad _, r => r.criticalityLevel
  | .criterio _, r => r.statusReasonCategory

/-- The selection a filter carries. -/
def seleccion : FilterSpec → List PValue
  | .anio s => s
  | .region s => s
  | .estado s => s
  | .severidad s => s
  | .criticidad s => s
  | .criterio s => s

/-- The row predicate of one filter: an empty selection passes every
row, a non-empty one keeps rows whose field value is selected
(`isin`). -/
def pasaFiltro (f : FilterSpec) (r : PRow) : Bool :=
  (seleccion f).isEmpty || (seleccion f).contains (campo f r)

/-- One application step, as the source writes it:
`df[df[col].isin(sel)] if sel else df`. -/
def aplicarFiltro (f : FilterSpec) (rows : List PRow) : List PRow :=
  if (seleccion f).isEmpty then rows
  else rows.filter (fun r => (seleccion f).contains (campo f r))

/-- Sequential application of a list of filters. -/
def aplicarFiltros (fs : List FilterSpec) (rows : List PRow) : List PRow :=
  fs.foldl (fun acc f => aplicarFiltro f acc) rows

/-- Models `_aplicar_filtros_avanzados` (view_paradas.py lines 193-232);
the sidebar widgets are dropped and the six multiselect selections come
in as parameters.  The `CriticalityLevel` and `StatusReason_Category`
filters only run when their column exists, as in the source. -/
def aplicar_filtros_avanzados (aniosSel regionesSel estadosSel severidadesSel
    criticidadesSel criteriosSel : List PValue) (df : PTable) : PTable :=
  let t1 := if aniosSel.isEmpty then df.rows
    else df.rows.filter (fun r => aniosSel.contains r.anio)
  let t2 := if regionesSel.isEmpty then t1
    else t1.filter (fun r => regionesSel.contains r.customerRegion)
  let t3 := if estadosSel.isEmpty then t2
    else t2.filter (fun r => estadosSel.contains r.projectStatusFlag)
  let t4 := if severidadesSel.isEmpty then t3
    else t3.filter (fun r => severidadesSel.contains r.severidadRetraso)
  let t5 := if df.hasCriticalityLevel then
      (if criticidadesSel.isEmpty then t4
       else t4.filter (fun r => criticidadesSel.contains r.criticalityLevel))
    else t4
  let t6 := if df.hasStatusReasonCategory then
      (if criteriosSel.isEmpty then t5
       else t5.filter (fun r => criteriosSel.contains r.statusReasonCategory))
    else t5
  { df with rows := t6 }

/-- Insert a row into a descending-sorted list, after every row of
greater-or-equal key, so that earlier rows stay first on ties. -/
def insertarDesc (key : PRow → Int) (r : PRow) : List PRow → List PRow
  | [] => [r]
  | x :: xs => if key x ≤ key r then r :: x :: xs else x :: insertarDesc key r xs

/-- Stable descending sort by key. -/
def ordenarDesc (key : PRow → Int) : List PRow → List PRow
  | [] => []
  | r :: rs => insertarDesc key r (ordenarDesc key rs)

/-- Models `DataFrame.nlargest(n, col)` with the default `keep="first"`:
the n rows of largest key, ordered by descending key with earlier rows
first on ties. -/
def nlargestBy (n : Nat) (key : PRow → Int) (rows : List PRow) : List PRow :=
  (ordenarDesc key rows).take n

/-- Models `df.nlargest(10, "ImpactoVenta")` of `_render_tablas_detalle`
(view_paradas.py lines 595-597); the later column projection does not
touch row selection or order. -/
def topProyectosImpacto (df : PTable) : List PRow :=
  nlargestBy 10 (fun r => asInt r.impactoVenta) df.rows

/-- A paradas row with every cell missing. -/
def rP0 : PRow :=
  { projectID := .null, projectName := .null, customerRegion := .null,
    projectStatusFlag := .null, diasRetraso := .null, criticalityLevel := .null,
    statusReasonCategory := .null, indicadorRetraso := .null, impactoVenta := .null,
    duracionProyecto := .null, fechaActualizacion := .null, anio := .null,
    mes := .null, trimestre := .null, severidadRetraso := .null,
    rangoImpacto := .null, anioTrimestre := .null }

/-- A retrasos row with every cell missing. -/
def rR0 : RRow :=
  { mainPartner := .null, customerRegion := .null, solutionArea := .null,
    iss := .null, projectStatus := .null, projectName := .null,
    projectID := .null, plannedGoLive := .null, diasRetraso := .null }

/-- A concrete processing date. -/
def f0 : Fecha := { year := 2024, month := 6, day := 1 }

/-- Concrete input for the idempotence counterexample: the year column
is absent and the only update-timestamp cell does not parse. -/
def dfC3 : PTable :=
  { hasProjectID := false, hasProjectName := false, hasCustomerRegion := false,
    hasProjectStatusFlag := false, hasDiasRetraso := false, hasCriticalityLevel := false,
    hasStatusReasonCategory := false, hasIndicadorRetraso := false, hasImpactoVenta := false,
    hasDuracionProyecto := false, hasFechaActualizacion := true, hasAnio := false,
    hasMes := false, hasTrimestre := false,
    rows := [{ rP0 with fechaActualizacion := .str "sin fecha" }] }

/-- A fully-populated normalized-shape row (a fixed point of the
normalizer), used to instantiate hypotheses at a concrete table. -/
def rWP : PRow :=
  { projectID := .int 5, projectName := .str "Proyecto A",
    customerRegion := .str "LATAM", projectStatusFlag := .str "Pausado",
    diasRetraso := .int 40, criticalityLevel := .str "Normal",
    statusReasonCategory := .str "Otro", indicadorRetraso := .int 1,
    impactoVenta := .int 600000, duracionProyecto := .int 12,
    fechaActualizacion := .date { year := 2024, month := 5, day := 1 },
    anio := .int 2024, mes := .str "2024-05", trimestre := .str "T2",
    severidadRetraso := .str "Critico >31d", rangoImpacto := .str ">$500K",
    anioTrimestre := .str "2024-T2" }

/-- Concrete all-columns-present table holding `rWP`. -/
def dfWP : PTable := allPresent [rWP]

/-- Concrete paradas table without an identifier column (three rows). -/
def dfC7P : PTable :=
  { hasProjectID := false, hasProjectName := true, hasCustomerRegion := true,
    hasProjectStatusFlag := true, hasDiasRetraso := true, hasCriticalityLevel := true,
    hasStatusReasonCategory := true, hasIndicadorRetraso := true, hasImpactoVenta := true,
    hasDuracionProyecto := true, hasFechaActualizacion := true, hasAnio := true,
    hasMes := true, hasTrimestre := true,
    rows := [rWP, { rWP with diasRetraso := .int 3 }, { rWP with diasRetraso := .int 0 }] }

/-- Concrete retrasos table without an identifier column (two rows). -/
def dfC7R : RTable :=
  { hasMainPartner := false, hasCustomerRegion := false, hasSolutionArea := false,
    hasISS := false, hasProjectStatus := false, hasProjectName := false,
    hasProjectID := false, hasPlannedGoLive := false, hasDiasRetraso := false,
    rows := [rR0, { rR0 with diasRetraso := .int 9 }] }

/-- Concrete retrasos table with a planned-go-live column: one parseable
date (day number 100), one missing. -/
def dfC2 : RTable :=
  { hasMainPartner := true, hasCustomerRegion := true, hasSolutionArea := true,
    hasISS := true, hasProjectStatus := true, hasProjectName := true,
    hasProjectID := true, hasPlannedGoLive := true, hasDiasRetraso := true,
    rows := [{ rR0 with plannedGoLive := .date 100, diasRetraso := .int 7 },
             { rR0 with plannedGoLive := .null }] }

/-- Concrete retrasos row whose name is "abc". -/
def rBusq : RRow := { rR0 with projectName := .str "abc" }

/-- The value sequence `range(1, len(df) + 1)` assigns: `secuencia k n`
is the list of integer cells k, k+1, ..., k+n-1. -/
def secuencia (k : Int) : Nat → List PValue
  | 0 => []
  | n + 1 => PValue.int k :: secuencia (k + 1) n

theorem fillna_of_ne_null (d : PValue) {v : PValue} (h : v ≠ PValue.null) :
    fillna d v = v := by
  cases v <;> simp_all [fillna]

theorem fillna_ne_null (d v : PValue) (hd : d ≠ PValue.null) :
    fillna d v ≠ PValue.null := by
  cases v <;> simp_all [fillna]

theorem toNumeric_shape (v : PValue) :
    toNumeric v = PValue.null ∨ ∃ n, toNumeric v = PValue.int n := by
  cases v with
  | str s =>
    cases h : s.toInt? with
    | none => simp [toNumeric, h]
    | some n => simp [toNumeric, h]
  | _ => simp [toNumeric]

theorem coerceNum_shape (p : Bool) (v : PValue) :
    ∃ n, coerceNum p v = PValue.int n := by
  cases p with
  | false => exact ⟨0, by simp [coerceNum]⟩
  | true =>
    rcases toNumeric_shape v with h | ⟨n, h⟩
    · exact ⟨0, by simp [coerceNum, h, fillna]⟩
    · exact ⟨n, by simp [coerceNum, h, fillna]⟩

theorem coerceRow_projectID (df : PTable) (now : Fecha) (r : PRow) :
    (coerceRow df now r).projectID = r.projectID := rfl

theorem numerarDesde_length (k : Int) (rows : List PRow) :
    (numerarDesde k rows).length = rows.length := by
  induction rows generalizing k with
  | nil => rfl
  | cons r rs ih => simp [numerarDesde, ih]

theorem numerarDesde_pid_ne_null (k : Int) (rows : List PRow) :
    ∀ r ∈ numerarDesde k rows, r.projectID ≠ PValue.null := by
  induction rows generalizing k with
  | nil => intro r hr; cases hr
  | cons x xs ih =>
    intro r hr
    rcases hr with _ | hr
    · simp
    · exact ih (k + 1) r (by assumption)

theorem preparar_rows_pid_ne_null (now : Fecha) (df : PTable) :
    ∀ r ∈ ((if df.hasProjectID then
        df.rows.map (fun r => { r with projectID := fillna (PValue.int (-1)) r.projectID })
      else numerarDesde 1 df.rows).map (coerceRow df now)), r.projectID ≠ PValue.null := by
  intro r hr
  rcases List.mem_map.mp hr with ⟨a, ha, rfl⟩
  rw [coerceRow_projectID]
  split at ha
  · rcases List.mem_map.mp ha with ⟨b, _, rfl⟩
    exact fillna_ne_null _ _ (by simp)
  · exact numerarDesde_pid_ne_null 1 df.rows a ha

/-- C10: normalization preserves row count: the identifier column is
fully non-null before the final `dropna(subset=["ProjectID"])` (nulls
were filled with the sentinel -1, or the column was created fully
populated), so the drop removes no row. -/
theorem normalizacion_preserva_filas (now : Fecha) (df : PTable) :
    (preparar_datos_robustos now df).rows.length = df.rows.length := by
  have h := preparar_rows_pid_ne_null now df
  simp only [preparar_datos_robustos, allPresent]
  rw [List.filter_eq_self.mpr (fun r hr => by simpa [bne_iff_ne] using h r hr)]
  rw [List.length_map]
  split
  · rw [List.length_map]
  · exact numerarDesde_length 1 df.rows

/-- C1: in every normalized row, `SeveridadRetraso` is the severity
classifier applied to the row's delay value, and the classifier follows
the thresholds exactly: above 31 critical, in (0, 31] moderate, at or
below 0 no delay; in particular delay 31 is moderate, not critical. -/
theorem severidad_por_umbrales (now : Fecha) (df : PTable) (r : PRow)
    (hr : r ∈ (preparar_datos_robustos now df).rows) :
    r.severidadRetraso = PValue.str (clasificar_severidad (asInt r.diasRetraso))
    ∧ (∀ d : Int, 31 < d → clasificar_severidad d = "Critico >31d")
    ∧ (∀ d : Int, 0 < d → d ≤ 31 → clasificar_severidad d = "Moderado 1-31d")
    ∧ (∀ d : Int, d ≤ 0 → clasificar_severidad d = "Sin retraso")
    ∧ clasificar_severidad 31 = "Moderado 1-31d" := by
  refine ⟨?_, ?_, ?_, ?_, by decide⟩
  · simp only [preparar_datos_robustos, allPresent, List.mem_filter] at hr
    rcases List.mem_map.mp hr.1 with ⟨a, _, rfl⟩
    rfl
  · intro d hd
    simp [clasificar_severidad, hd]
  · intro d h1 h2
    have h3 : ¬ (31 : Int) < d := by omega
    simp [clasificar_severidad, h3, h1]
  · intro d h
    have h1 : ¬ (31 : Int) < d := by omega
    have h2 : ¬ (0 : Int) < d := by omega
    simp [clasificar_severidad, h1, h2]

/-- Witness for severidad_por_umbrales at the concrete normalized table
`dfWP` (a fixed point of the normalizer holding the row `rWP`). -/
theorem severidad_por_umbrales_witness :
    rWP.severidadRetraso = PValue.str (clasificar_severidad (asInt rWP.diasRetraso))
    ∧ clasificar_severidad 40 = "Critico >31d"
    ∧ clasificar_severidad 31 = "Moderado 1-31d"
    ∧ clasificar_severidad 0 = "Sin retraso" := by
  have h := severidad_por_umbrales f0 dfWP rWP (by decide)
  exact ⟨h.1, h.2.1 40 (by decide), h.2.2.2.2, h.2.2.2.1 0 (by decide)⟩

/-- C6: in every normalized row, `RangoImpacto` is the impact classifier
applied to the row's sales-impact value, and the classifier follows the
thresholds exactly; in particular an impact of 600000 classifies as
above 500K. -/
theorem impacto_por_umbrales (now : Fecha) (df : PTable) (r : PRow)
    (hr : r ∈ (preparar_datos_robustos now df).rows) :
    r.rangoImpacto = PValue.str (clasificar_impacto (asInt r.impactoVenta))
    ∧ (∀ m : Int, 500000 < m → clasificar_impacto m = ">$500K")
    ∧ (∀ m : Int, 100000 < m → m ≤ 500000 → clasificar_impacto m = "$100K-$500K")
    ∧ (∀ m : Int, 0 < m → m ≤ 100000 → clasificar_impacto m = "$1-$100K")
    ∧ (∀ m : Int, m ≤ 0 → clasificar_impacto m = "Sin impacto")
    ∧ clasificar_impacto 600000 = ">$500K" := by
  refine ⟨?_, ?_, ?_, ?_, ?_, by decide⟩
  · simp only [preparar_datos_robustos, allPresent, List.mem_filter] at hr
    rcases List.mem_map.mp hr.1 with ⟨a, _, rfl⟩
    rfl
  · intro m hm
    simp [clasificar_impacto, hm]
  · intro m h1 h2
    have h3 : ¬ (500000 : Int) < m := by omega
    simp [clasificar_impacto, h3, h1]
  · intro m h1 h2
    have h3 : ¬ (500000 : Int) < m := by omega
    have h4 : ¬ (100000 : Int) < m := by omega
    simp [clasificar_impacto, h3, h4, h1]
  · intro m h
    have h1 : ¬ (500000 : Int) < m := by omega
    have h2 : ¬ (100000 : Int) < m := by omega
    have h3 : ¬ (0 : Int) < m := by omega
    simp [clasificar_impacto, h1, h2, h3]

/-- Witness for impacto_por_umbrales at the concrete table `dfWP`. -/
theorem impacto_por_umbrales_witness :
    rWP.rangoImpacto = PValue.str (clasificar_impacto (asInt rWP.impactoVenta))
    ∧ clasificar_impacto 600000 = ">$500K"
    ∧ clasificar_impacto 250000 = "$100K-$500K"
    ∧ clasificar_impacto 50000 = "$1-$100K"
    ∧ clasificar_impacto 0 = "Sin impacto" := by
  have h := impacto_por_umbrales f0 dfWP rWP (by decide)
  exact ⟨h.1, h.2.2.2.2.2, h.2.2.1 250000 (by decide) (by decide),
    h.2.2.2.1 50000 (by decide) (by decide), h.2.2.2.2.1 0 (by decide)⟩

theorem secuencia_mem (n : Nat) : ∀ (k : Int), ∀ v ∈ secuencia k n,
    ∃ j : Int, v = PValue.int j ∧ k ≤ j ∧ j < k + n := by
  induction n with
  | zero => intro k v hv; cases hv
  | succ m ih =>
    intro k v hv
    rcases hv with _ | hv
    · exact ⟨k, rfl, le_refl k, by omega⟩
    · rcases ih (k + 1) v (by assumption) with ⟨j, rfl, h1, h2⟩
      exact ⟨j, rfl, by omega, by push_cast at h2 ⊢; omega⟩

theorem secuencia_nodup (n : Nat) : ∀ k : Int, (secuencia k n).Nodup := by
  induction n with
  | zero => intro k; exact List.nodup_nil
  | succ m ih =>
    intro k
    refine List.nodup_cons.mpr ⟨fun hmem => ?_, ih (k + 1)⟩
    rcases secuencia_mem m (k + 1) _ hmem with ⟨j, hj, h1, _⟩
    have := PValue.int.inj hj
    omega

theorem numerarDesde_map_pid (rows : List PRow) :
    ∀ k : Int, (numerarDesde k rows).map PRow.projectID = secuencia k rows.length := by
  induction rows with
  | nil => intro k; rfl
  | cons r rs ih =>
    intro k
    simp only [numerarDesde, List.map_cons, List.length_cons, secuencia, ih (k + 1)]

theorem preparar_map_pid_sin_columna (now : Fecha) (df : PTable)
    (h : df.hasProjectID = false) :
    (preparar_datos_robustos now df).rows.map PRow.projectID
      = secuencia 1 df.rows.length := by
  have hne := preparar_rows_pid_ne_null now df
  simp only [preparar_datos_robustos, allPresent] at hne ⊢
  rw [List.filter_eq_self.mpr (fun r hr => by simpa [bne_iff_ne] using hne r hr)]
  rw [h]
  simp only [if_neg Bool.false_ne_true, List.map_map]
  have hc : (PRow.projectID ∘ coerceRow df now) = PRow.projectID := by
    funext r; rfl
  rw [hc, numerarDesde_map_pid df.rows 1]

/-- C7 (amended): when the identifier column is absent, the paradas
normalizer `_preparar_datos_robustos` synthesizes it as the sequential
counter 1..N, so its identifiers are distinct integers; the retrasos
normalizer `_preparar_columnas` instead fills every row with the
constant string "0". -/
theorem identificador_sintetizado (now : Fecha) (df : PTable)
    (hP : df.hasProjectID = false) (fechaHoy : Option Int) (dfr : RTable)
    (hR : dfr.hasProjectID = false) :
    (preparar_datos_robustos now df).rows.map PRow.projectID
      = secuencia 1 df.rows.length
    ∧ ((preparar_datos_robustos now df).rows.map PRow.projectID).Nodup
    ∧ (preparar_columnas fechaHoy dfr).rows.map RRow.projectID
      = dfr.rows.map (fun _ => RValue.str "0") := by
  refine ⟨preparar_map_pid_sin_columna now df hP, ?_, ?_⟩
  · rw [preparar_map_pid_sin_columna now df hP]
    exact secuencia_nodup df.rows.length 1
  · simp only [preparar_columnas, List.map_map]
    refine List.map_congr_left (fun r _ => ?_)
    simp [prepRowR, coerceDefR, hR, fillnaR]

/-- C7 counterexample: on a two-row table without an identifier column,
the retrasos normalizer produces the constant string "0" for every row,
not the unique sequential integers 1..N the claim states. -/
theorem identificador_no_secuencial :
    (preparar_columnas none dfC7R).rows.map RRow.projectID
      = [RValue.str "0", RValue.str "0"]
    ∧ ¬ ((preparar_columnas none dfC7R).rows.map RRow.projectID).Nodup
    ∧ (preparar_columnas none dfC7R).rows.map RRow.projectID
      ≠ [RValue.int 1, RValue.int 2] := by
  refine ⟨by decide, by decide, by decide⟩

/-- Witness for identificador_sintetizado at the concrete tables
`dfC7P` (paradas, three rows) and `dfC7R` (retrasos, two rows). -/
theorem identificador_sintetizado_witness :
    (preparar_datos_robustos f0 dfC7P).rows.map PRow.projectID
      = [PValue.int 1, PValue.int 2, PValue.int 3]
    ∧ (preparar_columnas none dfC7R).rows.map RRow.projectID
      = [RValue.str "0", RValue.str "0"] := by
  have h := identificador_sintetizado f0 dfC7P (by decide) none dfC7R (by decide)
  refine ⟨?_, ?_⟩
  · rw [h.1]; decide
  · rw [h.2.2]; decide

/-- C2: with a reference date and a planned-go-live column, every row's
recomputed delay equals the integer day difference between the
reference date and its parseable planned-go-live date (possibly
negative), any precomputed delay notwithstanding; rows whose
planned-go-live is missing or unparseable get delay 0, and no delay
cell is ever null. -/
theorem recompute_dias_retraso (hoy : Int) (df : RTable)
    (h : df.hasPlannedGoLive = true) :
    (preparar_columnas (some hoy) df).rows.map RRow.diasRetraso
      = df.rows.map (fun r =>
          match toDatetimeR r.plannedGoLive with
          | .date g => RValue.int (hoy - g)
          | _ => RValue.int 0)
    ∧ ∀ v ∈ (preparar_columnas (some hoy) df).rows.map RRow.diasRetraso,
        v ≠ RValue.null := by
  have hmap : (preparar_columnas (some hoy) df).rows.map RRow.diasRetraso
      = df.rows.map (fun r =>
          match toDatetimeR r.plannedGoLive with
          | .date g => RValue.int (hoy - g)
          | _ => RValue.int 0) := by
    simp only [preparar_columnas, List.map_map]
    refine List.map_congr_left (fun r _ => ?_)
    simp only [Function.comp, prepRowR, h, if_pos]
    cases hg : toDatetimeR r.plannedGoLive <;>
      simp [hg, fillnaR, astypeIntR]
  refine ⟨hmap, ?_⟩
  rw [hmap]
  intro v hv
  rcases List.mem_map.mp hv with ⟨r, _, rfl⟩
  cases toDatetimeR r.plannedGoLive <;> simp

/-- Witness for recompute_dias_retraso at the concrete table `dfC2`
(planned-go-live day 100 and a missing planned-go-live) with reference
day number 131: delays 31 and 0. -/
theorem recompute_dias_retraso_witness :
    (preparar_columnas (some 131) dfC2).rows.map RRow.diasRetraso
      = [RValue.int 31, RValue.int 0] := by
  have h := recompute_dias_retraso 131 dfC2 (by decide)
  rw [h.1]; decide

/-- C5: an empty selection on any of the six categorical filter
dimensions passes every row through; in particular the whole filter
stage with all selections empty returns the table unchanged. -/
theorem seleccion_vacia_passthrough (df : PTable) (rows : List PRow) :
    aplicar_filtros_avanzados [] [] [] [] [] [] df = df
    ∧ aplicarFiltro (FilterSpec.anio []) rows = rows
    ∧ aplicarFiltro (FilterSpec.region []) rows = rows
    ∧ aplicarFiltro (FilterSpec.estado []) rows = rows
    ∧ aplicarFiltro (FilterSpec.severidad []) rows = rows
    ∧ aplicarFiltro (FilterSpec.criticidad []) rows = rows
    ∧ aplicarFiltro (FilterSpec.criterio []) rows = rows := by
  refine ⟨?_, rfl, rfl, rfl, rfl, rfl, rfl⟩
  simp [aplicar_filtros_avanzados]

theorem aplicarFiltro_eq_filter (f : FilterSpec) (rows : List PRow) :
    aplicarFiltro f rows = rows.filter (fun r => pasaFiltro f r) := by
  unfold aplicarFiltro pasaFiltro
  cases hs : (seleccion f).isEmpty
  · simp [hs]
  · simp [hs, List.filter_true]

theorem aplicarFiltros_eq_filter (fs : List FilterSpec) :
    ∀ rows : List PRow, aplicarFiltros fs rows
      = rows.filter (fun r => fs.all (fun f => pasaFiltro f r)) := by
  induction fs with
  | nil => intro rows; simp [aplicarFiltros, List.filter_true]
  | cons f fs ih =>
    intro rows
    show aplicarFiltros fs (aplicarFiltro f rows) = _
    rw [ih, aplicarFiltro_eq_filter, List.filter_filter]
    refine List.filter_congr (fun r _ => ?_)
    simp [List.all_cons, Bool.and_comm]

theorem perm_all_eq {α : Type} {l l' : List α} (h : l.Perm l') (p : α → Bool) :
    l.all p = l'.all p := by
  induction h with
  | nil => rfl
  | cons x _ ih => simp [List.all_cons, ih]
  | swap x y l => simp [List.all_cons, Bool.and_left_comm]
  | trans _ _ ih1 ih2 => rw [ih1, ih2]

/-- C4: the categorical filters compose by intersection of row
predicates, so sequential application in any order gives the same rows,
namely the rows passing every predicate; `_aplicar_filtros_avanzados`
is exactly the sequential application in its source order whenever its
two guarded columns exist (as they always do after normalization). -/
theorem filtros_conmutan (fs fs' : List FilterSpec) (h : fs.Perm fs')
    (rows : List PRow) :
    aplicarFiltros fs rows = aplicarFiltros fs' rows
    ∧ aplicarFiltros fs rows = rows.filter (fun r => fs.all (fun f => pasaFiltro f r))
    ∧ ∀ (a b c d e g : List PValue) (df : PTable),
        df.hasCriticalityLevel = true → df.hasStatusReasonCategory = true →
        (aplicar_filtros_avanzados a b c d e g df).rows
          = aplicarFiltros [FilterSpec.anio a, FilterSpec.region b, FilterSpec.estado c,
              FilterSpec.severidad d, FilterSpec.criticidad e, FilterSpec.criterio g] df.rows := by
  refine ⟨?_, aplicarFiltros_eq_filter fs rows, ?_⟩
  · rw [aplicarFiltros_eq_filter, aplicarFiltros_eq_filter]
    exact List.filter_congr (fun r _ => perm_all_eq h _)
  · intro a b c d e g df hc hs
    simp only [aplicar_filtros_avanzados, hc, hs, if_pos]
    rfl

/-- Witness for filtros_conmutan: two concrete filter lists that are
permutations of each other, over the concrete one-row table `dfWP`. -/
theorem filtros_conmutan_witness :
    aplicarFiltros [FilterSpec.region [PValue.str "LATAM"], FilterSpec.anio [PValue.int 2024]] [rWP]
      = aplicarFiltros [FilterSpec.anio [PValue.int 2024], FilterSpec.region [PValue.str "LATAM"]] [rWP]
    ∧ (aplicar_filtros_avanzados [PValue.int 2024] [] [] [] [] [] dfWP).rows
      = aplicarFiltros [FilterSpec.anio [PValue.int 2024], FilterSpec.region [],
          FilterSpec.estado [], FilterSpec.severidad [], FilterSpec.criticidad [],
          FilterSpec.criterio []] dfWP.rows := by
  have h := filtros_conmutan
    [FilterSpec.region [PValue.str "LATAM"], FilterSpec.anio [PValue.int 2024]]
    [FilterSpec.anio [PValue.int 2024], FilterSpec.region [PValue.str "LATAM"]]
    (by decide) [rWP]
  exact ⟨h.1, h.2.2 [PValue.int 2024] [] [] [] [] [] dfWP rfl rfl⟩

theorem coerceStr_idem (p : Bool) (d : String) (v : PValue) :
    coerceStr true d (coerceStr p d v) = coerceStr p d v := by
  cases p <;> cases v <;> simp [coerceStr, fillna]

theorem coerceNum_idem (p : Bool) (v : PValue) :
    coerceNum true (coerceNum p v) = coerceNum p v := by
  rcases coerceNum_shape p v with ⟨n, h⟩
  rw [h]
  simp [coerceNum, toNumeric, fillna]

theorem coerceFecha_shape (p : Bool) (now : Fecha) (v : PValue) :
    coerceFecha p now v = PValue.null ∨ ∃ f, coerceFecha p now v = PValue.date f := by
  cases p with
  | false => exact Or.inr ⟨now, rfl⟩
  | true =>
    cases v with
    | date f => exact Or.inr ⟨f, rfl⟩
    | null => exact Or.inl rfl
    | int n => exact Or.inl rfl
    | str s => exact Or.inl rfl

theorem coerceFecha_idem (p : Bool) (now1 now2 : Fecha) (v : PValue) :
    coerceFecha true now2 (coerceFecha p now1 v) = coerceFecha p now1 v := by
  rcases coerceFecha_shape p now1 v with h | ⟨f, h⟩ <;> rw [h] <;> rfl

theorem coerceTrimestre_shape (p : Bool) (f1 v : PValue) :
    ∃ s, coerceTrimestre p f1 v = PValue.str s := by
  cases p with
  | true => exact ⟨valueStr v, rfl⟩
  | false =>
    cases f1 with
    | date f => exact ⟨_, rfl⟩
    | null => exact ⟨"Tnan", rfl⟩
    | int n => exact ⟨"Tnan", rfl⟩
    | str s => exact ⟨"Tnan", rfl⟩

theorem coerceTrimestre_idem (p : Bool) (f1 f2 v : PValue) :
    coerceTrimestre true f2 (coerceTrimestre p f1 v) = coerceTrimestre p f1 v := by
  rcases coerceTrimestre_shape p f1 v with ⟨s, h⟩
  rw [h]; rfl

theorem coerceMes_true (f v : PValue) : coerceMes true f v = v := rfl

theorem coerceAnio_true_shape (f1 v : PValue) :
    ∃ n, coerceAnio true f1 v = PValue.int n := by
  rcases toNumeric_shape v with h | ⟨n, h⟩
  · exact ⟨2024, by simp [coerceAnio, h, fillna, astypeInt]⟩
  · exact ⟨n, by simp [coerceAnio, h, fillna, astypeInt]⟩

theorem coerceAnio_idem (p : Bool) (f1 f2 v : PValue)
    (h : p = true ∨ yearOf f1 ≠ PValue.null) :
    coerceAnio true f2 (coerceAnio p f1 v) = coerceAnio p f1 v := by
  cases p with
  | true =>
    rcases coerceAnio_true_shape f1 v with ⟨n, hn⟩
    rw [hn]
    simp [coerceAnio, toNumeric, fillna, astypeInt]
  | false =>
    rcases h with h | h
    · cases h
    · have hy : ∃ y, yearOf f1 = PValue.int y := by
        cases hv : f1 with
        | date f => exact ⟨f.year, rfl⟩
        | null => exact absurd (by rw [hv]; rfl) h
        | int n => exact absurd (by rw [hv]; rfl) h
        | str s => exact absurd (by rw [hv]; rfl) h
      rcases hy with ⟨y, hy⟩
      have : coerceAnio false f1 v = PValue.int y := by simp [coerceAnio, hy]
      rw [this]
      simp [coerceAnio, toNumeric, fillna, astypeInt]

theorem coerceRow_idem (df : PTable) (now1 now2 : Fecha) (rs : List PRow) (r : PRow)
    (h : df.hasAnio = true ∨
      yearOf (coerceFecha df.hasFechaActualizacion now1 r.fechaActualizacion) ≠ PValue.null) :
    coerceRow (allPresent rs) now2 (coerceRow df now1 r) = coerceRow df now1 r := by
  simp only [coerceRow, allPresent]
  rw [coerceFecha_idem]
  rw [coerceStr_idem, coerceStr_idem, coerceStr_idem, coerceStr_idem, coerceStr_idem]
  rw [coerceNum_idem, coerceNum_idem, coerceNum_idem, coerceNum_idem]
  rw [coerceTrimestre_idem, coerceMes_true]
  rw [coerceAnio_idem df.hasAnio _ _ _ h]

theorem numerarDesde_fecha (rows : List PRow) : ∀ (k : Int), ∀ r ∈ numerarDesde k rows,
    ∃ r0 ∈ rows, r.fechaActualizacion = r0.fechaActualizacion := by
  induction rows with
  | nil => intro k r hr; cases hr
  | cons x xs ih =>
    intro k r hr
    rcases hr with _ | hr
    · exact ⟨x, List.mem_cons_self x xs, rfl⟩
    · rcases ih (k + 1) r (by assumption) with ⟨r0, h0, he⟩
      exact ⟨r0, List.mem_cons_of_mem x h0, he⟩

theorem allPresent_rows (rows : List PRow) : (allPresent rows).rows = rows := rfl

theorem allPresent_hasProjectID (rows : List PRow) :
    (allPresent rows).hasProjectID = true := rfl

theorem preparar_idem_aux (df : PTable) (now1 now2 : Fecha) (l : List PRow)
    (hfe : ∀ r ∈ l, df.hasAnio = true ∨
      yearOf (coerceFecha df.hasFechaActualizacion now1 r.fechaActualizacion) ≠ PValue.null)
    (hpid : ∀ r ∈ l.map (coerceRow df now1), r.projectID ≠ PValue.null) :
    preparar_datos_robustos now2 (allPresent ((l.map (coerceRow df now1)).filter
        (fun r => r.projectID != PValue.null)))
      = allPresent ((l.map (coerceRow df now1)).filter
        (fun r => r.projectID != PValue.null)) := by
  have hmemL : ∀ r ∈ (l.map (coerceRow df now1)).filter
      (fun r => r.projectID != PValue.null), r ∈ l.map (coerceRow df now1) :=
    fun r hr => (List.mem_filter.mp hr).1
  have hA : ((l.map (coerceRow df now1)).filter
        (fun r => r.projectID != PValue.null)).map
      (fun r => { r with projectID := fillna (PValue.int (-1)) r.projectID })
      = (l.map (coerceRow df now1)).filter (fun r => r.projectID != PValue.null) :=
    ((List.map_congr_left (fun r hr => by
        rw [fillna_of_ne_null _ (hpid r (hmemL r hr))]; exact rfl)).trans
      (List.map_id _))
  have hB : ((l.map (coerceRow df now1)).filter
        (fun r => r.projectID != PValue.null)).map
      (coerceRow (allPresent ((l.map (coerceRow df now1)).filter
        (fun r => r.projectID != PValue.null))) now2)
      = (l.map (coerceRow df now1)).filter (fun r => r.projectID != PValue.null) :=
    ((List.map_congr_left (fun r hr => by
        rcases List.mem_map.mp (hmemL r hr) with ⟨r1, hr1, rfl⟩
        exact coerceRow_idem df now1 now2 _ r1 (hfe r1 hr1))).trans
      (List.map_id _))
  unfold preparar_datos_robustos
  rw [allPresent_hasProjectID, allPresent_rows, if_pos rfl, hA, hB,
    List.filter_eq_self.mpr (fun r hr => (List.mem_filter.mp hr).2)]

/-- C3 (amended): the normalizer `_preparar_datos_robustos` is
idempotent on every table that carries a year column, or carries no
update-timestamp column, or whose update-timestamp cells all parse;
(otherwise the first pass derives a null year from an unparseable
timestamp and the second pass turns it into 2024, see the
counterexample). -/
theorem normalizar_idempotente (now1 now2 : Fecha) (df : PTable)
    (h : df.hasAnio = true ∨ df.hasFechaActualizacion = false ∨
      ∀ r ∈ df.rows, toDatetime r.fechaActualizacion ≠ PValue.null) :
    preparar_datos_robustos now2 (preparar_datos_robustos now1 df)
      = preparar_datos_robustos now1 df := by
  have hfe : ∀ r ∈ (if df.hasProjectID then
        df.rows.map (fun r => { r with projectID := fillna (PValue.int (-1)) r.projectID })
      else numerarDesde 1 df.rows),
      df.hasAnio = true ∨
        yearOf (coerceFecha df.hasFechaActualizacion now1 r.fechaActualizacion)
          ≠ PValue.null := by
    intro r hr
    rcases h with h | h | h
    · exact Or.inl h
    · rw [h]
      exact Or.inr (by simp [coerceFecha, yearOf])
    · cases hpres : df.hasFechaActualizacion with
      | false => exact Or.inr (by simp [coerceFecha, yearOf])
      | true =>
        have hex : ∃ r0 ∈ df.rows, r.fechaActualizacion = r0.fechaActualizacion := by
          split at hr
          · rcases List.mem_map.mp hr with ⟨a, ha, rfl⟩
            exact ⟨a, ha, rfl⟩
          · exact numerarDesde_fecha df.rows 1 r hr
        rcases hex with ⟨r0, hr0, he⟩
        have hnn := h r0 hr0
        refine Or.inr ?_
        simp only [coerceFecha, if_pos, he]
        cases hv : r0.fechaActualizacion with
        | date f => simp [toDatetime, yearOf]
        | null => exact absurd (by rw [hv]; rfl) hnn
        | int n => exact absurd (by rw [hv]; rfl) hnn
        | str s => exact absurd (by rw [hv]; rfl) hnn
  exact preparar_idem_aux df now1 now2 _ hfe (preparar_rows_pid_ne_null now1 df)

/-- C3 counterexample: on a one-row table whose only update-timestamp
cell does not parse and which has no year column, renormalizing the
normalized table changes it (the derived year goes from null to 2024,
and the year-quarter key follows). -/
theorem normalizar_no_idempotente :
    preparar_datos_robustos f0 (preparar_datos_robustos f0 dfC3)
      ≠ preparar_datos_robustos f0 dfC3 := by
  decide

/-- Witness for normalizar_idempotente at the concrete table `dfWP`
(its year column is present). -/
theorem normalizar_idempotente_witness :
    preparar_datos_robustos f0 (preparar_datos_robustos f0 dfWP)
      = preparar_datos_robustos f0 dfWP :=
  normalizar_idempotente f0 f0 dfWP (Or.inl (by decide))

theorem insertarDesc_eq (key : PRow → Int) (x : PRow) (L : List PRow) :
    insertarDesc key x L = List.orderedInsert (fun a b => key b ≤ key a) x L := by
  induction L with
  | nil => rfl
  | cons y ys ih =>
    simp only [insertarDesc, List.orderedInsert]
    by_cases h : key y ≤ key x
    · rw [if_pos h, if_pos h]
    · rw [if_neg h, if_neg h, ih]

theorem ordenarDesc_eq (key : PRow → Int) (l : List PRow) :
    ordenarDesc key l = List.insertionSort (fun a b => key b ≤ key a) l := by
  induction l with
  | nil => rfl
  | cons x xs ih => simp only [ordenarDesc, List.insertionSort, ih, insertarDesc_eq]

theorem ordenarDesc_sorted (key : PRow → Int) (l : List PRow) :
    List.Sorted (fun a b => key b ≤ key a) (ordenarDesc key l) := by
  rw [ordenarDesc_eq]
  haveI : IsTotal PRow (fun a b => key b ≤ key a) := ⟨fun a b => le_total (key b) (key a)⟩
  haveI : IsTrans PRow (fun a b => key b ≤ key a) :=
    ⟨fun a b c hab hbc => le_trans hbc hab⟩
  exact List.sorted_insertionSort _ l

theorem ordenarDesc_perm (key : PRow → Int) (l : List PRow) :
    (ordenarDesc key l).Perm l := by
  rw [ordenarDesc_eq]
  exact List.perm_insertionSort _ l

theorem filter_insertarDesc (key : PRow → Int) (x : PRow) (L : List PRow) (k : Int) :
    (insertarDesc key x L).filter (fun s => key s = k)
      = if key x = k then x :: L.filter (fun s => key s = k)
        else L.filter (fun s => key s = k) := by
  induction L with
  | nil =>
    by_cases hx : key x = k <;> simp [insertarDesc, hx]
  | cons y ys ih =>
    simp only [insertarDesc]
    by_cases hxy : key y ≤ key x
    · rw [if_pos hxy]
      by_cases hx : key x = k <;> simp [List.filter_cons, hx]
    · rw [if_neg hxy]
      by_cases hy : key y = k
      · have hx : ¬ key x = k := by omega
        simp [List.filter_cons, hy, hx, ih]
      · simp [List.filter_cons, hy, ih]

theorem filter_ordenarDesc (key : PRow → Int) (l : List PRow) (k : Int) :
    (ordenarDesc key l).filter (fun s => key s = k)
      = l.filter (fun s => key s = k) := by
  induction l with
  | nil => rfl
  | cons x xs ih =>
    simp only [ordenarDesc]
    rw [filter_insertarDesc]
    by_cases hx : key x = k
    · simp [List.filter_cons, hx, ih]
    · simp [List.filter_cons, hx, ih]

/-- C8: the top-N operation (`nlargest(n, col)` with default
`keep="first"`) is stable under ties: among rows of any fixed key value
the selection preserves the original order (the filter of the selection
at that key is a prefix of the filter of the input); the underlying
descending sort is a tie-preserving, sorted permutation of the input;
`_render_tablas_detalle`'s top-10-by-impact is this operation. -/
theorem topn_estable (n : Nat) (key : PRow → Int) (rows : List PRow) (k : Int)
    (df : PTable) :
    (nlargestBy n key rows).filter (fun r => key r = k)
      <+: rows.filter (fun r => key r = k)
    ∧ (ordenarDesc key rows).filter (fun r => key r = k)
      = rows.filter (fun r => key r = k)
    ∧ List.Sorted (fun a b => key b ≤ key a) (ordenarDesc key rows)
    ∧ (ordenarDesc key rows).Perm rows
    ∧ topProyectosImpacto df = nlargestBy 10 (fun r => asInt r.impactoVenta) df.rows := by
  refine ⟨?_, filter_ordenarDesc key rows k, ordenarDesc_sorted key rows,
    ordenarDesc_perm key rows, rfl⟩
  rw [← filter_ordenarDesc key rows k]
  exact ( List.take_prefix n _).filter _

theorem matchesHere_no_dot (pat : List Char) (hp : '.' ∉ pat) :
    ∀ s, matchesHere pat s = litMatchesHere pat s := by
  induction pat with
  | nil => intro s; rfl
  | cons p ps ih =>
    have hp1 : p ≠ '.' := fun h => hp (h ▸ List.mem_cons_self p ps)
    have hps : '.' ∉ ps := fun h => hp (List.mem_cons_of_mem p h)
    intro s
    cases s with
    | nil => rfl
    | cons c cs =>
      simp only [matchesHere, litMatchesHere, charMatches, litCharMatches, ih hps, hp1]
      simp

theorem reSearch_no_dot (pat : List Char) (hp : '.' ∉ pat) :
    ∀ s, reSearch pat s = litContains pat s := by
  intro s
  induction s with
  | nil => simp only [reSearch, litContains, matchesHere_no_dot pat hp]
  | cons c cs ih => simp only [reSearch, litContains, matchesHere_no_dot pat hp, ih]

/-- C9 (amended): the search term is interpreted as a regular expression
(`str.contains` defaults to `regex=True`), matched case-insensitively
anywhere in the name; for a term free of regex metacharacters this
coincides with literal case-insensitive substring containment; names
that are missing never match any term. -/
theorem busqueda_regex (term : String) (hne : term ≠ "") (hdot : '.' ∉ term.data)
    (s : String) (rows : List RRow) :
    strContainsCI term (RValue.str s) = literalContainsCI term s
    ∧ strContainsCI term RValue.null = false
    ∧ filtroBusqueda term rows
      = rows.filter (fun r => strContainsCI term r.projectName) := by
  refine ⟨?_, rfl, ?_⟩
  · simp only [strContainsCI, literalContainsCI]
    exact reSearch_no_dot term.data hdot s.data
  · unfold filtroBusqueda
    rw [if_neg (fun h => hne ((String.isEmpty_iff term).mp h))]

/-- C9 counterexample: with search term "a.c" the filter keeps the row
named "abc" (the '.' acts as a regex wildcard there), although "abc"
does not literally contain "a.c" under any casing, so the filter is not
the literal substring match the claim states. -/
theorem busqueda_no_literal :
    filtroBusqueda "a.c" [rBusq] = [rBusq]
    ∧ rBusq.projectName = RValue.str "abc"
    ∧ literalContainsCI "a.c" "abc" = false :=
  ⟨by decide, by decide, by decide⟩

/-- Witness for busqueda_regex with the metacharacter-free term "ab"
and the name "xAbc". -/
theorem busqueda_regex_witness :
    strContainsCI "ab" (RValue.str "xAbc") = literalContainsCI "ab" "xAbc"
    ∧ strContainsCI "ab" RValue.null = false
    ∧ filtroBusqueda "ab" [rBusq]
      = [rBusq].filter (fun r => strContainsCI "ab" r.projectName) :=
  busqueda_regex "ab" (by decide) (by decide) "xAbc" [rBusq]
